import Mathlib

/-!
Shallow embedding of the PDD FastAPI application's credential lifecycle
manager (src/pdd_app/api/auth.py, user.py, admin.py) and exam session
engine (src/pdd_app/api/exams.py), over the data model of
src/pdd_app/db/models.py.  The database is modelled as lists of rows with
explicit autoincrement counters; every endpoint becomes a pure function
from a database state (plus the request data and the current time) to
either an error or a response paired with the new state.
-/

namespace PDD

/-- Exam status enum, from `ExamStatusChoices` in db/models.py. -/
inductive ExamStatus
  | inProgress
  | completed
  | failed
deriving DecidableEq

/-- User role enum, from `RoleChoices` in db/models.py. -/
inductive Role
  | admin
  | user
deriving DecidableEq

/-- Question difficulty enum, from `DifficultyChoices` in db/models.py. -/
inductive Difficulty
  | easy
  | medium
  | advanced
deriving DecidableEq

/-- Token type discriminator: the `type` claim written by
`create_access_token` / `create_refresh_token` in api/auth.py. -/
inductive TokenType
  | access
  | refresh
deriving DecidableEq

/-- Model of a signed JWT as produced by `jwt.encode` in api/auth.py: the
payload dict `sub` (subject id, written as `str(user.id)`, modelled as the
id itself), the optional `email` claim (present only in access tokens),
the `exp` expiry timestamp and the `type` discriminator.  Signing is not
modelled: every value of this type stands for a correctly signed token, so
the signature-invalid 401 branch of `decode_token` is unreachable here.
Encoding is deterministic, as `jwt.encode` is: equal payloads give equal
token strings. -/
structure Jwt where
  sub : Nat
  email : Option String
  exp : Nat
  typ : TokenType
deriving DecidableEq

/-- Model of a stored password hash.  The auth module hashes with a
passlib `CryptContext(schemes=["argon2"])`, while the user/admin update
endpoints hash with a separate `CryptContext(schemes=["bcrypt"])`; a hash
records which scheme produced it and verifies only against the password it
was derived from.  (Real hashes are salted; the determinism of this model
is irrelevant to the claims, which only use verification behaviour.) -/
inductive PasswordHash
  | argon2 (plain : String)
  | bcrypt (plain : String)
deriving DecidableEq

/-- Row of the `user` table (class `User` in db/models.py). -/
structure UserRow where
  id : Nat
  email : String
  username : String
  password : PasswordHash
  role : Role
  createdAt : Nat
deriving DecidableEq

/-- Row of the `refresh_token` table (class `RefreshToken` in db/models.py). -/
structure RefreshTokenRow where
  id : Nat
  userId : Nat
  token : Jwt
  createdDate : Nat
deriving DecidableEq

/-- Row of the `question` table (class `Question` in db/models.py). -/
structure QuestionRow where
  id : Nat
  text : String
  image : Option String
  explanation : String
  difficulty : Difficulty
  categoryId : Nat
  createdAt : Nat
deriving DecidableEq

/-- Row of the `answer_option` table (class `AnswerOption` in db/models.py). -/
structure AnswerOptionRow where
  id : Nat
  questionId : Nat
  text : String
  isCorrect : Bool
deriving DecidableEq

/-- Row of the `exam` table (class `Exam` in db/models.py).  Note that no
column records which questions were sampled at start: the sampled set is
not persisted with the session. -/
structure ExamRow where
  id : Nat
  userId : Nat
  score : Nat
  status : ExamStatus
  startedAt : Nat
  finishedAt : Option Nat
deriving DecidableEq

/-- Row of the `exam_answer` table (class `ExamAnswer` in db/models.py). -/
structure ExamAnswerRow where
  id : Nat
  examId : Nat
  questionId : Nat
  selectedOptionId : Nat
  isCorrect : Bool
  answeredAt : Nat
deriving DecidableEq

/-- The database: one list of rows per table used by the core, plus the
autoincrement counters for the primary keys the handlers create. -/
structure DB where
  users : List UserRow
  refreshTokens : List RefreshTokenRow
  questions : List QuestionRow
  answerOptions : List AnswerOptionRow
  exams : List ExamRow
  examAnswers : List ExamAnswerRow
  nextUserId : Nat
  nextTokenId : Nat
  nextExamId : Nat
  nextExamAnswerId : Nat
deriving DecidableEq

/-- The client-facing errors, one constructor per distinct
`HTTPException` raise site in the modelled handlers:
`emailExists` / `usernameExists` are the 409s of `register`;
`tokenExpired` / `invalidToken` the 401s of `decode_token`;
`wrongTokenType` the 401 of `refresh_token` and `get_current_user`;
`badCredentials` the 401 of `login`; `tokenRevoked` the 401 of
`refresh_token`; `userNotFound` the 404s; `adminOnly` the 403 of
`admin_update_user`; `updateFieldsMissing` the 400 of
`update_current_user_profile`; `activeExamExists` the 400 of `start_exam`
(active exam present); `insufficientQuestions` its other 400;
`examNotFound` the 404 of the exam handlers; `notYourExam` their 403;
`examNotInProgress` their 400 for a terminal session;
`questionNotFound` / `optionNotFound` the 404s of `answer_question`;
`alreadyAnswered` its 400 for a duplicate answer; `notAllAnswered` the
400 of `finish_exam` for fewer answers than required.
`unknownHashError` is the one constructor that is not an `HTTPException`
raise site: it models passlib's `UnknownHashError`, raised when the
argon2-only context of auth.py is asked to verify a hash of another
scheme (e.g. a bcrypt hash written by the user/admin update paths); the
exception is unhandled and surfaces as a generic 500 internal failure,
so it belongs to none of the client-facing error kinds of spec section 7
(every classifier below is false on it). -/
inductive ApiError
  | emailExists
  | usernameExists
  | tokenExpired
  | invalidToken
  | wrongTokenType
  | badCredentials
  | tokenRevoked
  | userNotFound
  | adminOnly
  | updateFieldsMissing
  | activeExamExists
  | insufficientQuestions
  | examNotFound
  | notYourExam
  | examNotInProgress
  | questionNotFound
  | optionNotFound
  | alreadyAnswered
  | notAllAnswered
  | unknownHashError
deriving DecidableEq

/-- Modelled from the spec (section 7): the `Conflict` error kind covers a
duplicate registration field, an already active session, and a duplicate
answer. -/
def ApiError.isConflict : ApiError → Bool
  | .emailExists => true
  | .usernameExists => true
  | .activeExamExists => true
  | .alreadyAnswered => true
  | _ => false

/-- Modelled from the spec (section 7): the `Unauthorized` error kind
covers bad credentials and an invalid, expired, revoked or wrong-type
token. -/
def ApiError.isUnauthorized : ApiError → Bool
  | .tokenExpired => true
  | .invalidToken => true
  | .wrongTokenType => true
  | .badCredentials => true
  | .tokenRevoked => true
  | _ => false

/-- Modelled from the spec (section 7): the `InvalidState` error kind
covers operating on a terminal or not-yet-complete session. -/
def ApiError.isInvalidState : ApiError → Bool
  | .examNotInProgress => true
  | .notAllAnswered => true
  | _ => false

/-- Modelled from the spec (section 7): the `InsufficientData` error kind
covers a catalog too small to sample an exam from. -/
def ApiError.isInsufficientData : ApiError → Bool
  | .insufficientQuestions => true
  | _ => false

/-- EXAM_QUESTIONS_COUNT from api/exams.py (the spec's QUESTIONS_PER_EXAM). -/
def EXAM_QUESTIONS_COUNT : Nat := 20

/-- PASSING_SCORE from api/exams.py. -/
def PASSING_SCORE : Nat := 18

/-- ACCESS_TOKEN_EXPIRE_MINUTES is imported from pdd_app/config.py, which
is deployment configuration (spec section 6); no claim depends on its
value, so a representative value is used. -/
def ACCESS_TOKEN_EXPIRE_MINUTES : Nat := 30

/-- REFRESH_TOKEN_EXPIRE_DAYS, likewise from pdd_app/config.py. -/
def REFRESH_TOKEN_EXPIRE_DAYS : Nat := 7

/-- `hash_password` from api/auth.py: hashes with the argon2 context. -/
def hash_password (password : String) : PasswordHash :=
  PasswordHash.argon2 password

/-- `verify_password` from api/auth.py: the argon2-only context verifies
an argon2 hash exactly when it was derived from the given plaintext; on a
hash of an unrecognised scheme (e.g. bcrypt) passlib raises
`UnknownHashError`, an exception the handlers do not catch, which
surfaces as a generic 500 internal failure — modelled as the
`unknownHashError` error. -/
def verify_password (plainPassword : String) (hashedPassword : PasswordHash) :
    Except ApiError Bool :=
  match hashedPassword with
  | PasswordHash.argon2 p => Except.ok (p == plainPassword)
  | PasswordHash.bcrypt _ => Except.error ApiError.unknownHashError

/-- The `pwd_context.hash` of api/user.py and api/admin.py: a separate
`CryptContext(schemes=["bcrypt"])`. -/
def bcrypt_hash (password : String) : PasswordHash :=
  PasswordHash.bcrypt password

/-- `create_access_token` from api/auth.py, called with
`data = sub and email` and the default expiry. -/
def create_access_token (sub : Nat) (email : String) (now : Nat) : Jwt :=
  { sub := sub, email := some email,
    exp := now + 60 * ACCESS_TOKEN_EXPIRE_MINUTES, typ := TokenType.access }

/-- `create_refresh_token` from api/auth.py, called with `data = sub`. -/
def create_refresh_token (sub : Nat) (now : Nat) : Jwt :=
  { sub := sub, email := none,
    exp := now + 86400 * REFRESH_TOKEN_EXPIRE_DAYS, typ := TokenType.refresh }

/-- `decode_token` from api/auth.py: 401 when the token is expired; the
malformed/bad-signature 401 branch is unreachable because every `Jwt`
value models a correctly signed token. -/
def decode_token (token : Jwt) (now : Nat) : Except ApiError Jwt :=
  if token.exp ≤ now then Except.error ApiError.tokenExpired else Except.ok token

/-- UserRegisterResponseSchema (db/schema.py): the new user's public
identity, never the hash. -/
structure RegisterResponse where
  id : Nat
  email : String
  username : String
  createdAt : Nat
deriving DecidableEq

/-- TokenSchema (db/schema.py). -/
structure TokenResponse where
  accessToken : Jwt
  refreshToken : Jwt
  tokenType : String
deriving DecidableEq

/-- AccessTokenSchema (db/schema.py). -/
structure AccessTokenResponse where
  accessToken : Jwt
deriving DecidableEq

/-- QuestionOptionSchema (db/schema.py): only id and text — the
`is_correct` flag has no field here and is withheld from the start
response. -/
structure OptionOut where
  id : Nat
  text : String
deriving DecidableEq

/-- QuestionSchema (db/schema.py). -/
structure QuestionOut where
  id : Nat
  text : String
  image : Option String
  options : List OptionOut
deriving DecidableEq

/-- ExamStartResponseSchema (db/schema.py). -/
structure StartResponse where
  message : String
  examId : Nat
  startedAt : Nat
  questions : List QuestionOut
deriving DecidableEq

/-- ExamAnswerResponseSchema (db/schema.py). -/
structure AnswerResponse where
  message : String
  isCorrect : Bool
  currentScore : Nat
deriving DecidableEq

/-- ExamFinishResponseSchema (db/schema.py). -/
structure FinishResponse where
  message : String
  examId : Nat
  score : Nat
  totalQuestions : Nat
  passed : Bool
  finishedAt : Nat
deriving DecidableEq

/-- The `question.question_options` ORM relationship: the answer-option
rows whose `question_id` is the given question. -/
def DB.optionsOf (db : DB) (questionId : Nat) : List AnswerOptionRow :=
  db.answerOptions.filter (fun o => o.questionId == questionId)

/-- The `exam.exam_answers` ORM relationship: the exam-answer rows whose
`exam_id` is the given exam. -/
def DB.answersOf (db : DB) (examId : Nat) : List ExamAnswerRow :=
  db.examAnswers.filter (fun a => a.examId == examId)

/-- The status of the exam row with the given id, if any (lookup used to
state claims about the stored session after an operation). -/
def DB.examStatus (db : DB) (examId : Nat) : Option ExamStatus :=
  (db.exams.find? (fun e => e.id == examId)).map ExamRow.status

/-- The score of the exam row with the given id, if any. -/
def DB.examScore (db : DB) (examId : Nat) : Option Nat :=
  (db.exams.find? (fun e => e.id == examId)).map ExamRow.score

/-- The ExamAnswer row inserted by `answer_question`. -/
def newAnswerRow (db : DB) (examId questionId optionId now : Nat) (isCorrect : Bool) :
    ExamAnswerRow :=
  { id := db.nextExamAnswerId, examId := examId, questionId := questionId,
    selectedOptionId := optionId, isCorrect := isCorrect, answeredAt := now }

/-- The QuestionSchema built by `start_exam` for one sampled question:
id, text, image, and the options projected to id and text. -/
def questionToSchema (db : DB) (q : QuestionRow) : QuestionOut :=
  { id := q.id, text := q.text, image := q.image,
    options := (db.optionsOf q.id).map (fun o => { id := o.id, text := o.text }) }

/-- `start_exam` from api/exams.py.  The result of
`random.sample(all_questions, EXAM_QUESTIONS_COUNT)` is the `sample`
argument (randomness externalised); theorems assume of it only the
contract of `random.sample`: a duplicate-free selection of
`EXAM_QUESTIONS_COUNT` elements of the catalog. -/
def start_exam (db : DB) (currentUserId : Nat) (sample : List QuestionRow) (now : Nat) :
    Except ApiError (StartResponse × DB) :=
  match db.exams.find? (fun e => e.userId == currentUserId && e.status == ExamStatus.inProgress) with
  | some _ => Except.error ApiError.activeExamExists
  | none =>
    if db.questions.length < EXAM_QUESTIONS_COUNT then
      Except.error ApiError.insufficientQuestions
    else
      let newExam : ExamRow :=
        { id := db.nextExamId, userId := currentUserId, score := 0,
          status := ExamStatus.inProgress, startedAt := now, finishedAt := none }
      Except.ok
        ({ message := "Экзамен начат", examId := db.nextExamId, startedAt := now,
           questions := sample.map (questionToSchema db) },
         { db with exams := db.exams ++ [newExam], nextExamId := db.nextExamId + 1 })

/-- `answer_question` from api/exams.py, checks in source order: exam
exists, owned by the caller, in progress, question exists, option exists
and belongs to the question, not already answered; then records the
answer, bumps the score iff the option is correct, and reports the
correctness and the running score. -/
def answer_question (db : DB) (currentUserId examId questionId optionId now : Nat) :
    Except ApiError (AnswerResponse × DB) :=
  match db.exams.find? (fun e => e.id == examId) with
  | none => Except.error ApiError.examNotFound
  | some exam =>
    if exam.userId ≠ currentUserId then Except.error ApiError.notYourExam
    else if exam.status ≠ ExamStatus.inProgress then Except.error ApiError.examNotInProgress
    else match db.questions.find? (fun q => q.id == questionId) with
    | none => Except.error ApiError.questionNotFound
    | some _ =>
      match db.answerOptions.find? (fun o => o.id == optionId && o.questionId == questionId) with
      | none => Except.error ApiError.optionNotFound
      | some option =>
        match db.examAnswers.find? (fun a => a.examId == examId && a.questionId == questionId) with
        | some _ => Except.error ApiError.alreadyAnswered
        | none =>
          let newScore := if option.isCorrect then exam.score + 1 else exam.score
          Except.ok
            ({ message := "Ответ сохранен", isCorrect := option.isCorrect,
               currentScore := newScore },
             { db with
                 examAnswers := db.examAnswers ++
                   [newAnswerRow db examId questionId optionId now option.isCorrect],
                 exams := db.exams.map (fun e =>
                   if e.id == examId then { e with score := newScore } else e),
                 nextExamAnswerId := db.nextExamAnswerId + 1 })

/-- `finish_exam` from api/exams.py: same existence/ownership/state checks
as `answer_question`, then rejects when fewer than EXAM_QUESTIONS_COUNT
answers are recorded, else sets the terminal status from the score and
stamps the finish time. -/
def finish_exam (db : DB) (currentUserId examId now : Nat) :
    Except ApiError (FinishResponse × DB) :=
  match db.exams.find? (fun e => e.id == examId) with
  | none => Except.error ApiError.examNotFound
  | some exam =>
    if exam.userId ≠ currentUserId then Except.error ApiError.notYourExam
    else if exam.status ≠ ExamStatus.inProgress then Except.error ApiError.examNotInProgress
    else if (db.answersOf examId).length < EXAM_QUESTIONS_COUNT then
      Except.error ApiError.notAllAnswered
    else
        let passed := decide (PASSING_SCORE ≤ exam.score)
        let newStatus := if passed then ExamStatus.completed else ExamStatus.failed
        Except.ok
          ({ message := "Экзамен завершен", examId := exam.id, score := exam.score,
             totalQuestions := (db.answersOf examId).length, passed := passed,
             finishedAt := now },
           { db with exams := db.exams.map (fun e =>
               if e.id == examId then { e with status := newStatus, finishedAt := some now } else e) })

/-- `register` from api/auth.py. -/
def register (db : DB) (email username password : String) (now : Nat) :
    Except ApiError (RegisterResponse × DB) :=
  match db.users.find? (fun u => u.email == email) with
  | some _ => Except.error ApiError.emailExists
  | none =>
    match db.users.find? (fun u => u.username == username) with
    | some _ => Except.error ApiError.usernameExists
    | none =>
      let user : UserRow :=
        { id := db.nextUserId, email := email, username := username,
          password := hash_password password, role := Role.user, createdAt := now }
      Except.ok
        ({ id := user.id, email := email, username := username, createdAt := now },
         { db with users := db.users ++ [user], nextUserId := db.nextUserId + 1 })

/-- `login` from api/auth.py: one 401 for both a missing user and a
failed password verification; an exception raised inside
`verify_password` (the unknown-hash case) propagates out of the handler
unhandled; on success issues the two tokens and persists the refresh
token row. -/
def login (db : DB) (email password : String) (now : Nat) :
    Except ApiError (TokenResponse × DB) :=
  match db.users.find? (fun u => u.email == email) with
  | none => Except.error ApiError.badCredentials
  | some user =>
    match verify_password password user.password with
    | Except.error e => Except.error e
    | Except.ok verified =>
    if ¬ verified then Except.error ApiError.badCredentials
    else
      let access := create_access_token user.id user.email now
      let refresh := create_refresh_token user.id now
      let row : RefreshTokenRow :=
        { id := db.nextTokenId, userId := user.id, token := refresh, createdDate := now }
      Except.ok
        ({ accessToken := access, refreshToken := refresh, tokenType := "Bearer" },
         { db with refreshTokens := db.refreshTokens ++ [row],
                   nextTokenId := db.nextTokenId + 1 })

/-- The `refresh_token` endpoint from api/auth.py: decode, check the type
claim, require a persisted row matching the exact token and subject, then
require the user to exist and mint a new access token only.  Reads the
database without changing it. -/
def refresh_token (db : DB) (tok : Jwt) (now : Nat) : Except ApiError AccessTokenResponse :=
  match decode_token tok now with
  | Except.error e => Except.error e
  | Except.ok payload =>
    if payload.typ ≠ TokenType.refresh then Except.error ApiError.wrongTokenType
    else
      match db.refreshTokens.find? (fun r => r.token == tok && r.userId == payload.sub) with
      | none => Except.error ApiError.tokenRevoked
      | some _ =>
        match db.users.find? (fun u => u.id == payload.sub) with
        | none => Except.error ApiError.userNotFound
        | some user =>
          Except.ok { accessToken := create_access_token user.id user.email now }

/-- `logout` from api/auth.py: `.first()` the row whose token column
matches, delete that row (by its primary key) if present, and answer
success either way. -/
def logout (db : DB) (tok : Jwt) : String × DB :=
  match db.refreshTokens.find? (fun r => r.token == tok) with
  | some row =>
    ("Logout success",
     { db with refreshTokens := db.refreshTokens.filter (fun r => !(r.id == row.id)) })
  | none => ("Logout success", db)

/-- `update_current_user_profile` from api/user.py (PUT /users/me): the
caller is resolved by `get_current_user`; requires at least one field,
then overwrites the present fields, hashing a new password with the
bcrypt context.  The statistics block of the response is outside the core
and not modelled; the new state is returned. -/
def update_current_user_profile (db : DB) (currentUserId : Nat)
    (email username password : Option String) : Except ApiError DB :=
  match db.users.find? (fun u => u.id == currentUserId) with
  | none => Except.error ApiError.userNotFound
  | some _ =>
    if email.isNone ∧ username.isNone ∧ password.isNone then
      Except.error ApiError.updateFieldsMissing
    else
      Except.ok { db with users := db.users.map (fun u =>
        if u.id == currentUserId then
          { u with
              email := email.getD u.email,
              username := username.getD u.username,
              password := (password.map bcrypt_hash).getD u.password }
        else u) }

/-- `admin_update_user` from api/admin.py (PUT /admin/users/user_id):
requires the caller to be an admin, the target to exist, then overwrites
the present fields, hashing a new password with the bcrypt context. -/
def admin_update_user (db : DB) (currentUserId targetUserId : Nat)
    (email username password : Option String) (role : Option Role) : Except ApiError DB :=
  match db.users.find? (fun u => u.id == currentUserId) with
  | none => Except.error ApiError.userNotFound
  | some current =>
    if current.role ≠ Role.admin then Except.error ApiError.adminOnly
    else
      match db.users.find? (fun u => u.id == targetUserId) with
      | none => Except.error ApiError.userNotFound
      | some _ =>
        Except.ok { db with users := db.users.map (fun u =>
          if u.id == targetUserId then
            { u with
                email := email.getD u.email,
                username := username.getD u.username,
                password := (password.map bcrypt_hash).getD u.password,
                role := role.getD u.role }
          else u) }

/-- One request to any state-relevant endpoint of the modelled core. -/
inductive Op
  | register (email username password : String) (now : Nat)
  | login (email password : String) (now : Nat)
  | refresh (tok : Jwt) (now : Nat)
  | logout (tok : Jwt)
  | start (uid : Nat) (sample : List QuestionRow) (now : Nat)
  | answer (uid examId questionId optionId now : Nat)
  | finish (uid examId now : Nat)
  | updateProfile (uid : Nat) (email username password : Option String)
  | adminUpdate (uid target : Nat) (email username password : Option String) (role : Option Role)

/-- The database state after one request: handlers raise their
`HTTPException` before any mutation, so an error leaves the state as it
was. -/
def applyOp (db : DB) : Op → DB
  | Op.register e u p now =>
    match register db e u p now with
    | Except.ok (_, db') => db'
    | Except.error _ => db
  | Op.login e p now =>
    match login db e p now with
    | Except.ok (_, db') => db'
    | Except.error _ => db
  | Op.refresh _ _ => db
  | Op.logout t => (logout db t).2
  | Op.start uid sample now =>
    match start_exam db uid sample now with
    | Except.ok (_, db') => db'
    | Except.error _ => db
  | Op.answer uid examId questionId optionId now =>
    match answer_question db uid examId questionId optionId now with
    | Except.ok (_, db') => db'
    | Except.error _ => db
  | Op.finish uid examId now =>
    match finish_exam db uid examId now with
    | Except.ok (_, db') => db'
    | Except.error _ => db
  | Op.updateProfile uid e u p =>
    match update_current_user_profile db uid e u p with
    | Except.ok db' => db'
    | Except.error _ => db
  | Op.adminUpdate uid target e u p r =>
    match admin_update_user db uid target e u p r with
    | Except.ok db' => db'
    | Except.error _ => db

/-- Contract of `random.sample(all_questions, EXAM_QUESTIONS_COUNT)`: a
duplicate-free list of EXAM_QUESTIONS_COUNT elements of the catalog. -/
abbrev SampleOk (catalog sample : List QuestionRow) : Prop :=
  sample.length = EXAM_QUESTIONS_COUNT ∧ sample.Nodup ∧ ∀ q ∈ sample, q ∈ catalog

/-- Two exam rows do not witness a violation of the one-active-exam
invariant: not both in progress for the same user. -/
abbrev ActiveRel (a b : ExamRow) : Prop :=
  ¬(a.userId = b.userId ∧ a.status = ExamStatus.inProgress ∧ b.status = ExamStatus.inProgress)

/-- At most one in-progress exam per user: no two positions of the exam
table are in-progress rows of the same user. -/
abbrev OneActiveExamPerUser (db : DB) : Prop := db.exams.Pairwise ActiveRel

/-- Every exam's score column equals the number of its recorded answers
whose correctness flag is set. -/
abbrev ScoreInv (db : DB) : Prop :=
  ∀ e ∈ db.exams,
    e.score = (db.examAnswers.filter (fun a => a.examId == e.id && a.isCorrect)).length

/-- Primary-key uniqueness of the exam table. -/
abbrev ExamIdsNodup (db : DB) : Prop := (db.exams.map ExamRow.id).Nodup

/-- Well-formedness the persistence layer guarantees for the exam tables:
primary keys are unique, below the autoincrement counter, and every
answer's foreign key references an existing exam. -/
abbrev ExamWF (db : DB) : Prop :=
  ExamIdsNodup db ∧
  (∀ e ∈ db.exams, e.id < db.nextExamId) ∧
  (∀ a ∈ db.examAnswers, ∃ e ∈ db.exams, a.examId = e.id)

/-- Primary-key uniqueness of the question table. -/
abbrev QuestionIdsNodup (db : DB) : Prop := (db.questions.map QuestionRow.id).Nodup

theorem find?_append_none {α} {p : α → Bool} {l₁ : List α} (l₂ : List α)
    (h : l₁.find? p = none) : (l₁ ++ l₂).find? p = l₂.find? p := by
  rw [List.find?_append, h, Option.none_or]

theorem find?_key_of_mem {α κ : Type} [DecidableEq κ] (key : α → κ) {l : List α} {x : α}
    (hn : (l.map key).Nodup) (hx : x ∈ l) :
    l.find? (fun y => key y == key x) = some x := by
  induction l with
  | nil => cases hx
  | cons a l ih =>
    rw [List.map_cons, List.nodup_cons] at hn
    rcases List.mem_cons.mp hx with rfl | hxl
    · exact List.find?_cons_of_pos _ (by simp)
    · have hk : key a ≠ key x := fun h => hn.1 (h ▸ List.mem_map_of_mem key hxl)
      rw [List.find?_cons_of_neg _ (by simp [hk]), ih hn.2 hxl]

theorem pairwise_active_map {l : List ExamRow} (f : ExamRow → ExamRow)
    (hu : ∀ e, (f e).userId = e.userId)
    (hs : ∀ e, (f e).status = ExamStatus.inProgress → e.status = ExamStatus.inProgress)
    (hp : l.Pairwise ActiveRel) : (l.map f).Pairwise ActiveRel := by
  rw [List.pairwise_map]
  refine hp.imp ?_
  intro a b hab ⟨h1, h2, h3⟩
  exact hab ⟨by rw [← hu a, ← hu b, h1], hs a h2, hs b h3⟩

theorem answer_question_ok {db : DB} {uid examId questionId optionId now : Nat}
    {resp : AnswerResponse} {db' : DB}
    (h : answer_question db uid examId questionId optionId now = Except.ok (resp, db')) :
    ∃ exam option,
      db.exams.find? (fun e => e.id == examId) = some exam ∧
      exam.userId = uid ∧
      exam.status = ExamStatus.inProgress ∧
      (db.questions.find? (fun q => q.id == questionId)).isSome ∧
      db.answerOptions.find? (fun o => o.id == optionId && o.questionId == questionId)
        = some option ∧
      db.examAnswers.find? (fun a => a.examId == examId && a.questionId == questionId) = none ∧
      resp = { message := "Ответ сохранен", isCorrect := option.isCorrect,
               currentScore := if option.isCorrect then exam.score + 1 else exam.score } ∧
      db' = { db with
                examAnswers := db.examAnswers ++
                  [newAnswerRow db examId questionId optionId now option.isCorrect],
                exams := db.exams.map (fun e =>
                  if e.id == examId then
                    { e with score := if option.isCorrect then exam.score + 1 else exam.score }
                  else e),
                nextExamAnswerId := db.nextExamAnswerId + 1 } := by
  unfold answer_question at h
  split at h
  · exact absurd h (by simp)
  case _ exam hexam =>
    split at h
    · exact absurd h (by simp)
    case _ huid =>
      split at h
      · exact absurd h (by simp)
      case _ hstat =>
        split at h
        · exact absurd h (by simp)
        case _ q hq =>
          split at h
          · exact absurd h (by simp)
          case _ option hopt =>
            split at h
            · exact absurd h (by simp)
            case _ hdup =>
              refine ⟨exam, option, hexam, not_not.mp huid, not_not.mp hstat,
                by simp [hq], hopt, hdup, ?_⟩
              simp only [Except.ok.injEq, Prod.mk.injEq] at h
              exact ⟨h.1.symm, h.2.symm⟩

theorem answer_question_succeeds {db : DB} {uid examId questionId optionId now : Nat}
    {exam : ExamRow} {option : AnswerOptionRow}
    (hexam : db.exams.find? (fun e => e.id == examId) = some exam)
    (huid : exam.userId = uid)
    (hstat : exam.status = ExamStatus.inProgress)
    (hq : (db.questions.find? (fun q => q.id == questionId)).isSome)
    (hopt : db.answerOptions.find? (fun o => o.id == optionId && o.questionId == questionId)
      = some option)
    (hdup : db.examAnswers.find? (fun a => a.examId == examId && a.questionId == questionId)
      = none) :
    answer_question db uid examId questionId optionId now = Except.ok
      ({ message := "Ответ сохранен", isCorrect := option.isCorrect,
         currentScore := if option.isCorrect then exam.score + 1 else exam.score },
       { db with
           examAnswers := db.examAnswers ++
             [newAnswerRow db examId questionId optionId now option.isCorrect],
           exams := db.exams.map (fun e =>
             if e.id == examId then
               { e with score := if option.isCorrect then exam.score + 1 else exam.score }
             else e),
           nextExamAnswerId := db.nextExamAnswerId + 1 }) := by
  obtain ⟨q, hq'⟩ := Option.isSome_iff_exists.mp hq
  unfold answer_question
  rw [hexam, hq', hopt, hdup]
  simp [huid, hstat]

theorem start_exam_ok {db : DB} {uid : Nat} {sample : List QuestionRow} {now : Nat}
    {resp : StartResponse} {db' : DB}
    (h : start_exam db uid sample now = Except.ok (resp, db')) :
    db.exams.find? (fun e => e.userId == uid && e.status == ExamStatus.inProgress) = none ∧
    EXAM_QUESTIONS_COUNT ≤ db.questions.length ∧
    resp = { message := "Экзамен начат", examId := db.nextExamId, startedAt := now,
             questions := sample.map (questionToSchema db) } ∧
    db' = { db with
              exams := db.exams ++
                [{ id := db.nextExamId, userId := uid, score := 0,
                   status := ExamStatus.inProgress, startedAt := now, finishedAt := none }],
              nextExamId := db.nextExamId + 1 } := by
  unfold start_exam at h
  split at h
  · exact absurd h (by simp)
  case _ hact =>
    split at h
    · exact absurd h (by simp)
    case _ hlen =>
      simp only [Except.ok.injEq, Prod.mk.injEq] at h
      exact ⟨hact, Nat.le_of_not_lt hlen, h.1.symm, h.2.symm⟩

theorem start_exam_succeeds {db : DB} {uid : Nat} {sample : List QuestionRow} {now : Nat}
    (hact : db.exams.find? (fun e => e.userId == uid && e.status == ExamStatus.inProgress)
      = none)
    (hlen : EXAM_QUESTIONS_COUNT ≤ db.questions.length) :
    start_exam db uid sample now = Except.ok
      ({ message := "Экзамен начат", examId := db.nextExamId, startedAt := now,
         questions := sample.map (questionToSchema db) },
       { db with
           exams := db.exams ++
             [{ id := db.nextExamId, userId := uid, score := 0,
                status := ExamStatus.inProgress, startedAt := now, finishedAt := none }],
           nextExamId := db.nextExamId + 1 }) := by
  unfold start_exam
  rw [hact]
  simp [Nat.not_lt_of_le hlen]

theorem finish_exam_ok {db : DB} {uid examId now : Nat}
    {resp : FinishResponse} {db' : DB}
    (h : finish_exam db uid examId now = Except.ok (resp, db')) :
    ∃ exam,
      db.exams.find? (fun e => e.id == examId) = some exam ∧
      exam.userId = uid ∧
      exam.status = ExamStatus.inProgress ∧
      EXAM_QUESTIONS_COUNT ≤ (db.answersOf examId).length ∧
      resp = { message := "Экзамен завершен", examId := exam.id, score := exam.score,
               totalQuestions := (db.answersOf examId).length,
               passed := decide (PASSING_SCORE ≤ exam.score), finishedAt := now } ∧
      db' = { db with exams := db.exams.map (fun e =>
                if e.id == examId then
                  { e with
                      status := if decide (PASSING_SCORE ≤ exam.score) then ExamStatus.completed
                                else ExamStatus.failed,
                      finishedAt := some now }
                else e) } := by
  unfold finish_exam at h
  split at h
  · exact absurd h (by simp)
  case _ exam hexam =>
    split at h
    · exact absurd h (by simp)
    case _ huid =>
      split at h
      · exact absurd h (by simp)
      case _ hstat =>
        split at h
        · exact absurd h (by simp)
        case _ hlen =>
          refine ⟨exam, hexam, not_not.mp huid, not_not.mp hstat, Nat.le_of_not_lt hlen, ?_⟩
          simp only [Except.ok.injEq, Prod.mk.injEq] at h
          exact ⟨h.1.symm, h.2.symm⟩

theorem finish_exam_succeeds {db : DB} {uid examId now : Nat} {exam : ExamRow}
    (hexam : db.exams.find? (fun e => e.id == examId) = some exam)
    (huid : exam.userId = uid)
    (hstat : exam.status = ExamStatus.inProgress)
    (hlen : EXAM_QUESTIONS_COUNT ≤ (db.answersOf examId).length) :
    finish_exam db uid examId now = Except.ok
      ({ message := "Экзамен завершен", examId := exam.id, score := exam.score,
         totalQuestions := (db.answersOf examId).length,
         passed := decide (PASSING_SCORE ≤ exam.score), finishedAt := now },
       { db with exams := db.exams.map (fun e =>
           if e.id == examId then
             { e with
                 status := if decide (PASSING_SCORE ≤ exam.score) then ExamStatus.completed
                           else ExamStatus.failed,
                 finishedAt := some now }
           else e) }) := by
  unfold finish_exam
  rw [hexam]
  simp [huid, hstat, Nat.not_lt_of_le hlen]

theorem register_ok {db : DB} {email username password : String} {now : Nat}
    {resp : RegisterResponse} {db' : DB}
    (h : register db email username password now = Except.ok (resp, db')) :
    db.users.find? (fun u => u.email == email) = none ∧
    db.users.find? (fun u => u.username == username) = none ∧
    resp = { id := db.nextUserId, email := email, username := username, createdAt := now } ∧
    db' = { db with
              users := db.users ++
                [{ id := db.nextUserId, email := email, username := username,
                   password := hash_password password, role := Role.user, createdAt := now }],
              nextUserId := db.nextUserId + 1 } := by
  unfold register at h
  split at h
  · exact absurd h (by simp)
  case _ hmail =>
    split at h
    · exact absurd h (by simp)
    case _ hname =>
      simp only [Except.ok.injEq, Prod.mk.injEq] at h
      exact ⟨hmail, hname, h.1.symm, h.2.symm⟩

theorem login_ok {db : DB} {email password : String} {now : Nat}
    {resp : TokenResponse} {db' : DB}
    (h : login db email password now = Except.ok (resp, db')) :
    ∃ user,
      db.users.find? (fun u => u.email == email) = some user ∧
      verify_password password user.password = Except.ok true ∧
      resp = { accessToken := create_access_token user.id user.email now,
               refreshToken := create_refresh_token user.id now, tokenType := "Bearer" } ∧
      db' = { db with
                refreshTokens := db.refreshTokens ++
                  [{ id := db.nextTokenId, userId := user.id,
                     token := create_refresh_token user.id now, createdDate := now }],
                nextTokenId := db.nextTokenId + 1 } := by
  unfold login at h
  split at h
  · exact absurd h (by simp)
  case _ user huser =>
    split at h
    · exact absurd h (by simp)
    case _ verified hverify =>
      split at h
      · exact absurd h (by simp)
      case _ hv =>
        have hvt : verified = true := by simpa using hv
        subst hvt
        simp only [Except.ok.injEq, Prod.mk.injEq] at h
        exact ⟨user, huser, hverify, h.1.symm, h.2.symm⟩

theorem update_profile_ok {db : DB} {uid : Nat} {email username password : Option String}
    {db' : DB}
    (h : update_current_user_profile db uid email username password = Except.ok db') :
    db' = { db with users := db.users.map (fun u =>
      if u.id == uid then
        { u with
            email := email.getD u.email,
            username := username.getD u.username,
            password := (password.map bcrypt_hash).getD u.password }
      else u) } := by
  unfold update_current_user_profile at h
  split at h
  · exact absurd h (by simp)
  split at h
  · exact absurd h (by simp)
  simp only [Except.ok.injEq] at h
  exact h.symm

theorem admin_update_ok {db : DB} {uid target : Nat} {email username password : Option String}
    {role : Option Role} {db' : DB}
    (h : admin_update_user db uid target email username password role = Except.ok db') :
    db' = { db with users := db.users.map (fun u =>
      if u.id == target then
        { u with
            email := email.getD u.email,
            username := username.getD u.username,
            password := (password.map bcrypt_hash).getD u.password,
            role := role.getD u.role }
      else u) } := by
  unfold admin_update_user at h
  split at h
  · exact absurd h (by simp)
  split at h
  · exact absurd h (by simp)
  split at h
  · exact absurd h (by simp)
  simp only [Except.ok.injEq] at h
  exact h.symm

theorem logout_snd_refreshTokens (db : DB) (tok : Jwt) :
    (logout db tok).2.users = db.users ∧
    (logout db tok).2.exams = db.exams ∧
    (logout db tok).2.examAnswers = db.examAnswers ∧
    (logout db tok).2.questions = db.questions ∧
    (logout db tok).2.answerOptions = db.answerOptions := by
  unfold logout
  split <;> exact ⟨rfl, rfl, rfl, rfl, rfl⟩

theorem filter_answers_append_ne {l : List ExamAnswerRow} {row : ExamAnswerRow} {target : Nat}
    (h : row.examId ≠ target) :
    (l ++ [row]).filter (fun a => a.examId == target && a.isCorrect)
      = l.filter (fun a => a.examId == target && a.isCorrect) := by
  have hb : (row.examId == target) = false := by simpa using h
  rw [List.filter_append, List.filter_singleton]
  simp [hb]

theorem oneActive_applyOp (db : DB) (op : Op) (hinv : OneActiveExamPerUser db) :
    OneActiveExamPerUser (applyOp db op) := by
  cases op with
  | register e u p now =>
    simp only [applyOp]
    split
    · next r db' hr => rw [(register_ok hr).2.2.2]; exact hinv
    · exact hinv
  | login e p now =>
    simp only [applyOp]
    split
    · next r db' hr =>
      obtain ⟨user, _, _, _, hdb⟩ := login_ok hr
      rw [hdb]; exact hinv
    · exact hinv
  | refresh tok now => simp only [applyOp]; exact hinv
  | logout tok =>
    simp only [applyOp]
    unfold OneActiveExamPerUser
    rw [(logout_snd_refreshTokens db tok).2.1]
    exact hinv
  | updateProfile uid e u p =>
    simp only [applyOp]
    split
    · next db' hr => rw [update_profile_ok hr]; exact hinv
    · exact hinv
  | adminUpdate uid t e u p r =>
    simp only [applyOp]
    split
    · next db' hr => rw [admin_update_ok hr]; exact hinv
    · exact hinv
  | start uid sample now =>
    simp only [applyOp]
    split
    · next r db' hr =>
      obtain ⟨hact, _, _, hdb⟩ := start_exam_ok hr
      rw [hdb]
      show (db.exams ++ [_]).Pairwise ActiveRel
      rw [List.pairwise_append]
      refine ⟨hinv, List.pairwise_singleton _ _, ?_⟩
      intro a ha b hb
      rw [List.mem_singleton] at hb
      subst hb
      intro ⟨h1, h2, _⟩
      have := List.find?_eq_none.mp hact a ha
      simp only [Bool.and_eq_true, beq_iff_eq] at this
      exact this ⟨h1, h2⟩
    · exact hinv
  | answer uid examId questionId optionId now =>
    simp only [applyOp]
    split
    · next r db' hr =>
      obtain ⟨exam, option, _, _, _, _, _, _, _, hdb⟩ := answer_question_ok hr
      rw [hdb]
      show (db.exams.map _).Pairwise ActiveRel
      refine pairwise_active_map _ ?_ ?_ hinv
      · intro e; split <;> rfl
      · intro e he; split at he <;> simpa using he
    · exact hinv
  | finish uid examId now =>
    simp only [applyOp]
    split
    · next r db' hr =>
      obtain ⟨exam, _, _, _, _, _, hdb⟩ := finish_exam_ok hr
      rw [hdb]
      show (db.exams.map _).Pairwise ActiveRel
      refine pairwise_active_map _ ?_ ?_ hinv
      · intro e; split <;> rfl
      · intro e he
        split at he
        · split at he <;> cases he
        · exact he
    · exact hinv

theorem scoreInv_applyOp (db : DB) (op : Op) (hwf : ExamWF db) (hinv : ScoreInv db) :
    ScoreInv (applyOp db op) := by
  obtain ⟨hnodup, hlt, hfk⟩ := hwf
  cases op with
  | register e u p now =>
    simp only [applyOp]
    split
    · next r db' hr => rw [(register_ok hr).2.2.2]; exact hinv
    · exact hinv
  | login e p now =>
    simp only [applyOp]
    split
    · next r db' hr =>
      obtain ⟨user, _, _, _, hdb⟩ := login_ok hr
      rw [hdb]; exact hinv
    · exact hinv
  | refresh tok now => simp only [applyOp]; exact hinv
  | logout tok =>
    simp only [applyOp]
    unfold ScoreInv
    rw [(logout_snd_refreshTokens db tok).2.1, (logout_snd_refreshTokens db tok).2.2.1]
    exact hinv
  | updateProfile uid e u p =>
    simp only [applyOp]
    split
    · next db' hr => rw [update_profile_ok hr]; exact hinv
    · exact hinv
  | adminUpdate uid t e u p r =>
    simp only [applyOp]
    split
    · next db' hr => rw [admin_update_ok hr]; exact hinv
    · exact hinv
  | start uid sample now =>
    simp only [applyOp]
    split
    · next r db' hr =>
      obtain ⟨hact, _, _, hdb⟩ := start_exam_ok hr
      rw [hdb]
      intro e he
      rcases List.mem_append.mp he with hel | hnew
      · exact hinv e hel
      · rw [List.mem_singleton] at hnew
        subst hnew
        show (0 : Nat) = _
        have hfil : db.examAnswers.filter
            (fun a => a.examId == db.nextExamId && a.isCorrect) = [] := by
          rw [List.filter_eq_nil_iff]
          intro a ha
          obtain ⟨e', he', hid⟩ := hfk a ha
          have : a.examId ≠ db.nextExamId := by
            rw [hid]
            exact Nat.ne_of_lt (hlt e' he')
          simp [this]
        rw [hfil]
        rfl
    · exact hinv
  | answer uid examId questionId optionId now =>
    simp only [applyOp]
    split
    · next r db' hr =>
      obtain ⟨exam, option, hexam, _, _, _, _, hdup, _, hdb⟩ := answer_question_ok hr
      rw [hdb]
      intro e' he'
      obtain ⟨e, he, hfe⟩ := List.mem_map.mp he'
      subst hfe
      by_cases heid : e.id = examId
      · have hexam_mem : exam ∈ db.exams := List.mem_of_find?_eq_some hexam
        have hexam_id : exam.id = examId := by simpa using List.find?_some hexam
        have hee : exam = e :=
          List.inj_on_of_nodup_map hnodup hexam_mem he (by rw [heid, hexam_id])
        rw [if_pos (show (e.id == examId) = true by simp [heid])]
        show (if option.isCorrect = true then exam.score + 1 else exam.score)
          = ((db.examAnswers ++
                [newAnswerRow db examId questionId optionId now option.isCorrect]).filter
              (fun a => a.examId == e.id && a.isCorrect)).length
        rw [← hee]
        rw [List.filter_append, List.filter_singleton, List.length_append]
        have hpe : ((newAnswerRow db examId questionId optionId now option.isCorrect).examId
            == exam.id
            && (newAnswerRow db examId questionId optionId now option.isCorrect).isCorrect)
            = option.isCorrect := by
          show (examId == exam.id && option.isCorrect) = option.isCorrect
          rw [hexam_id]
          simp
        rw [hpe, ← hinv exam hexam_mem]
        by_cases hc : option.isCorrect = true
        · rw [hc, cond_true]
          simp
        · have hcf : option.isCorrect = false := by simpa using hc
          rw [hcf, cond_false]
          simp
      · rw [if_neg (show ¬(e.id == examId) = true by simp [heid])]
        show e.score
          = ((db.examAnswers ++
                [newAnswerRow db examId questionId optionId now option.isCorrect]).filter
              (fun a => a.examId == e.id && a.isCorrect)).length
        have hne : (newAnswerRow db examId questionId optionId now option.isCorrect).examId
            ≠ e.id := by
          show examId ≠ e.id
          exact fun hcon => heid hcon.symm
        rw [filter_answers_append_ne hne]
        exact hinv e he
    · exact hinv
  | finish uid examId now =>
    simp only [applyOp]
    split
    · next r db' hr =>
      obtain ⟨exam, _, _, _, _, _, hdb⟩ := finish_exam_ok hr
      rw [hdb]
      intro e' he'
      obtain ⟨e, he, hfe⟩ := List.mem_map.mp he'
      subst hfe
      by_cases heid : e.id = examId
      · rw [if_pos (show (e.id == examId) = true by simp [heid])]
        show e.score
          = (db.examAnswers.filter (fun a => a.examId == e.id && a.isCorrect)).length
        exact hinv e he
      · rw [if_neg (show ¬(e.id == examId) = true by simp [heid])]
        exact hinv e he
    · exact hinv

theorem start_exam_conflict {db : DB} {uid : Nat} (sample : List QuestionRow) (now : Nat)
    {exam : ExamRow} (hmem : exam ∈ db.exams) (huid : exam.userId = uid)
    (hstat : exam.status = ExamStatus.inProgress) :
    start_exam db uid sample now = Except.error ApiError.activeExamExists := by
  have hsome :
      (db.exams.find? (fun e => e.userId == uid && e.status == ExamStatus.inProgress)).isSome := by
    rw [List.find?_isSome]
    exact ⟨exam, hmem, by simp [huid, hstat]⟩
  obtain ⟨e, he⟩ := Option.isSome_iff_exists.mp hsome
  unfold start_exam
  rw [he]

theorem answer_terminal {db : DB} {exam : ExamRow} (questionId optionId now : Nat)
    (hn : ExamIdsNodup db) (hmem : exam ∈ db.exams)
    (hterm : exam.status ≠ ExamStatus.inProgress) :
    answer_question db exam.userId exam.id questionId optionId now
      = Except.error ApiError.examNotInProgress := by
  unfold answer_question
  rw [find?_key_of_mem ExamRow.id hn hmem]
  simp [hterm]

theorem finish_terminal {db : DB} {exam : ExamRow} (now : Nat)
    (hn : ExamIdsNodup db) (hmem : exam ∈ db.exams)
    (hterm : exam.status ≠ ExamStatus.inProgress) :
    finish_exam db exam.userId exam.id now = Except.error ApiError.examNotInProgress := by
  unfold finish_exam
  rw [find?_key_of_mem ExamRow.id hn hmem]
  simp [hterm]

theorem finish_not_enough {db : DB} {uid examId now : Nat} {exam : ExamRow}
    (hexam : db.exams.find? (fun e => e.id == examId) = some exam)
    (huid : exam.userId = uid) (hstat : exam.status = ExamStatus.inProgress)
    (hlen : (db.answersOf examId).length < EXAM_QUESTIONS_COUNT) :
    finish_exam db uid examId now = Except.error ApiError.notAllAnswered := by
  unfold finish_exam
  rw [hexam]
  simp [huid, hstat, hlen]

theorem terminal_unchanged (db : DB) (op : Op) {exam : ExamRow}
    (hn : ExamIdsNodup db) (hmem : exam ∈ db.exams)
    (hterm : exam.status ≠ ExamStatus.inProgress) :
    exam ∈ (applyOp db op).exams ∧
    (applyOp db op).examAnswers.filter (fun a => a.examId == exam.id)
      = db.examAnswers.filter (fun a => a.examId == exam.id) := by
  cases op with
  | register e u p now =>
    simp only [applyOp]
    split
    · next r db' hr => rw [(register_ok hr).2.2.2]; exact ⟨hmem, rfl⟩
    · exact ⟨hmem, rfl⟩
  | login e p now =>
    simp only [applyOp]
    split
    · next r db' hr =>
      obtain ⟨user, _, _, _, hdb⟩ := login_ok hr
      rw [hdb]; exact ⟨hmem, rfl⟩
    · exact ⟨hmem, rfl⟩
  | refresh tok now => simp only [applyOp]; exact ⟨hmem, trivial⟩
  | logout tok =>
    simp only [applyOp]
    constructor
    · rw [(logout_snd_refreshTokens db tok).2.1]; exact hmem
    · rw [(logout_snd_refreshTokens db tok).2.2.1]
  | updateProfile uid e u p =>
    simp only [applyOp]
    split
    · next db' hr => rw [update_profile_ok hr]; exact ⟨hmem, rfl⟩
    · exact ⟨hmem, rfl⟩
  | adminUpdate uid t e u p r =>
    simp only [applyOp]
    split
    · next db' hr => rw [admin_update_ok hr]; exact ⟨hmem, rfl⟩
    · exact ⟨hmem, rfl⟩
  | start uid sample now =>
    simp only [applyOp]
    split
    · next r db' hr =>
      obtain ⟨_, _, _, hdb⟩ := start_exam_ok hr
      rw [hdb]
      exact ⟨List.mem_append_left _ hmem, rfl⟩
    · exact ⟨hmem, rfl⟩
  | answer uid examId questionId optionId now =>
    simp only [applyOp]
    split
    · next r db' hr =>
      obtain ⟨exam2, option, hexam2, _, hstat2, _, _, _, _, hdb⟩ := answer_question_ok hr
      have hne : examId ≠ exam.id := by
        intro hcon
        subst hcon
        rw [find?_key_of_mem ExamRow.id hn hmem] at hexam2
        injection hexam2 with h2
        subst h2
        exact hterm hstat2
      have hne' : exam.id ≠ examId := fun h => hne h.symm
      rw [hdb]
      constructor
      · refine List.mem_map.mpr ⟨exam, hmem, ?_⟩
        rw [if_neg (show ¬(exam.id == examId) = true by simp [hne'])]
      · rw [List.filter_append, List.filter_singleton]
        have hb : ((newAnswerRow db examId questionId optionId now option.isCorrect).examId
            == exam.id) = false := by simpa using hne
        rw [hb, cond_false, List.append_nil]
    · exact ⟨hmem, rfl⟩
  | finish uid examId now =>
    simp only [applyOp]
    split
    · next r db' hr =>
      obtain ⟨exam2, hexam2, _, hstat2, _, _, hdb⟩ := finish_exam_ok hr
      have hne : examId ≠ exam.id := by
        intro hcon
        subst hcon
        rw [find?_key_of_mem ExamRow.id hn hmem] at hexam2
        injection hexam2 with h2
        subst h2
        exact hterm hstat2
      have hne' : exam.id ≠ examId := fun h => hne h.symm
      rw [hdb]
      refine ⟨List.mem_map.mpr ⟨exam, hmem, ?_⟩, rfl⟩
      rw [if_neg (show ¬(exam.id == examId) = true by simp [hne'])]
    · exact ⟨hmem, rfl⟩

theorem find?_congr {α} {p q : α → Bool} (h : ∀ a, p a = q a) :
    ∀ l : List α, l.find? p = l.find? q := by
  intro l
  induction l with
  | nil => rfl
  | cons a t ih =>
    by_cases hqa : q a = true
    · rw [List.find?_cons_of_pos _ (by rw [h a]; exact hqa), List.find?_cons_of_pos _ hqa]
    · rw [List.find?_cons_of_neg _ (by rw [h a]; exact hqa), List.find?_cons_of_neg _ hqa]
      exact ih

theorem find?_score_update {l : List ExamRow} {examId ns : Nat} :
    (l.map (fun e => if e.id == examId then { e with score := ns } else e)).find?
      (fun e => e.id == examId)
    = (l.find? (fun e => e.id == examId)).map
        (fun e => if e.id == examId then { e with score := ns } else e) := by
  rw [List.find?_map]
  refine congrArg (Option.map _) (find?_congr (fun a => ?_) l)
  show ((if (a.id == examId) = true then { a with score := ns } else a).id == examId)
    = (a.id == examId)
  split <;> rfl

theorem find?_status_update {l : List ExamRow} {examId : Nat} {st : ExamStatus}
    {fin : Option Nat} :
    (l.map (fun e => if e.id == examId then { e with status := st, finishedAt := fin }
        else e)).find? (fun e => e.id == examId)
    = (l.find? (fun e => e.id == examId)).map
        (fun e => if e.id == examId then { e with status := st, finishedAt := fin } else e) := by
  rw [List.find?_map]
  refine congrArg (Option.map _) (find?_congr (fun a => ?_) l)
  show ((if (a.id == examId) = true then { a with status := st, finishedAt := fin }
    else a).id == examId) = (a.id == examId)
  split <;> rfl

theorem fresh_examId_unreferenced {db : DB} (hwf : ExamWF db) :
    ∀ a ∈ db.examAnswers, a.examId ≠ db.nextExamId := by
  intro a ha
  obtain ⟨e, he, hid⟩ := hwf.2.2 a ha
  rw [hid]
  exact Nat.ne_of_lt (hwf.2.1 e he)

/-- Concrete question row i, for witnesses. -/
def exQuestion (i : Nat) : QuestionRow :=
  { id := i, text := "q", image := none, explanation := "e",
    difficulty := Difficulty.easy, categoryId := 0, createdAt := 0 }

/-- Concrete correct answer option (id 100 + i) for question i. -/
def exOption (i : Nat) : AnswerOptionRow :=
  { id := 100 + i, questionId := i, text := "o", isCorrect := true }

/-- Concrete wrong answer option (id 200 + i) for question i. -/
def exOptionWrong (i : Nat) : AnswerOptionRow :=
  { id := 200 + i, questionId := i, text := "w", isCorrect := false }

/-- Concrete recorded answer of exam 0 for question i with correctness c. -/
def exAnswer (i : Nat) (c : Bool) : ExamAnswerRow :=
  { id := i, examId := 0, questionId := i, selectedOptionId := 100 + i,
    isCorrect := c, answeredAt := 0 }

/-- Concrete user (id 1) whose password was stored by `register`. -/
def alice : UserRow :=
  { id := 1, email := "a@b.c", username := "alice", password := hash_password "pw",
    role := Role.user, createdAt := 0 }

/-- t correct answers (questions 0..t-1) then f wrong answers
(questions t..t+f-1), all for exam 0. -/
def exAnswers (t f : Nat) : List ExamAnswerRow :=
  (List.range t).map (fun i => exAnswer i true)
    ++ (List.range f).map (fun i => exAnswer (t + i) false)

/-- Concrete database: user alice, a catalog of n questions each with a
correct and a wrong option, a single exam of alice (id 0, given status and
score) and the given recorded answers. -/
def examDB (n : Nat) (st : ExamStatus) (score : Nat)
    (answers : List ExamAnswerRow) : DB :=
  { users := [alice],
    refreshTokens := [],
    questions := (List.range n).map exQuestion,
    answerOptions := (List.range n).map exOption ++ (List.range n).map exOptionWrong,
    exams := [{ id := 0, userId := 1, score := score, status := st, startedAt := 0,
                finishedAt := none }],
    examAnswers := answers,
    nextUserId := 2, nextTokenId := 1, nextExamId := 1,
    nextExamAnswerId := 1000 }

/-- C2: for every user at most one ExamSession is in status in_progress at
any time: every operation of the modelled surface preserves the invariant,
and `start` fails with the Conflict-kind error (active exam already
present) whenever the calling user already has an in-progress session,
leaving the database unchanged. -/
theorem claim_C2 :
    (∀ (db : DB) (op : Op),
      OneActiveExamPerUser db → OneActiveExamPerUser (applyOp db op)) ∧
    (∀ (db : DB) (uid : Nat) (sample : List QuestionRow) (now : Nat) (exam : ExamRow),
      exam ∈ db.exams → exam.userId = uid → exam.status = ExamStatus.inProgress →
        start_exam db uid sample now = Except.error ApiError.activeExamExists ∧
        applyOp db (Op.start uid sample now) = db ∧
        ApiError.activeExamExists.isConflict = true) := by
  refine ⟨oneActive_applyOp, ?_⟩
  intro db uid sample now exam hmem huid hstat
  have herr := start_exam_conflict sample now hmem huid hstat
  refine ⟨herr, ?_, rfl⟩
  simp only [applyOp, herr]

/-- Witness for C2 at a concrete database: alice has an in-progress exam,
the invariant is preserved by a start operation, and a second start is
rejected with the active-exam Conflict. -/
theorem claim_C2_witness :
    OneActiveExamPerUser
      (applyOp (examDB 0 ExamStatus.inProgress 0 []) (Op.start 1 [] 5)) ∧
    start_exam (examDB 0 ExamStatus.inProgress 0 []) 1 [] 5
      = Except.error ApiError.activeExamExists :=
  ⟨claim_C2.1 (examDB 0 ExamStatus.inProgress 0 []) (Op.start 1 [] 5) (by decide),
   (claim_C2.2 (examDB 0 ExamStatus.inProgress 0 []) 1 [] 5
      { id := 0, userId := 1, score := 0, status := ExamStatus.inProgress,
        startedAt := 0, finishedAt := none }
      (by decide) (by decide) (by decide)).1⟩

/-- C6: an ExamSession in a terminal status (completed or failed) is never
mutated again: `answer` and `finish` on it are rejected with the
InvalidState-kind error (session already finished) and leave the database
unchanged, and after any operation the session row is still present
unchanged with its recorded answers intact. -/
theorem claim_C6 (db : DB) (exam : ExamRow)
    (hn : ExamIdsNodup db) (hmem : exam ∈ db.exams)
    (hterm : exam.status ≠ ExamStatus.inProgress) :
    (∀ questionId optionId now,
      answer_question db exam.userId exam.id questionId optionId now
        = Except.error ApiError.examNotInProgress ∧
      applyOp db (Op.answer exam.userId exam.id questionId optionId now) = db) ∧
    (∀ now,
      finish_exam db exam.userId exam.id now = Except.error ApiError.examNotInProgress ∧
      applyOp db (Op.finish exam.userId exam.id now) = db) ∧
    ApiError.examNotInProgress.isInvalidState = true ∧
    (∀ op : Op, exam ∈ (applyOp db op).exams ∧
      (applyOp db op).examAnswers.filter (fun a => a.examId == exam.id)
        = db.examAnswers.filter (fun a => a.examId == exam.id)) := by
  refine ⟨?_, ?_, rfl, fun op => terminal_unchanged db op hn hmem hterm⟩
  · intro questionId optionId now
    have herr := answer_terminal questionId optionId now hn hmem hterm
    exact ⟨herr, by simp only [applyOp, herr]⟩
  · intro now
    have herr := finish_terminal now hn hmem hterm
    exact ⟨herr, by simp only [applyOp, herr]⟩

/-- Witness for C6 at a concrete database: an exam of alice in status
completed rejects a further answer with the session-finished error. -/
theorem claim_C6_witness :
    answer_question (examDB 0 ExamStatus.completed 18 []) 1 0 5 6 7
      = Except.error ApiError.examNotInProgress :=
  ((claim_C6 (examDB 0 ExamStatus.completed 18 [])
      { id := 0, userId := 1, score := 18, status := ExamStatus.completed,
        startedAt := 0, finishedAt := none }
      (by decide) (by decide) (by decide)).1 5 6 7).1

/-- An empty database with all autoincrement counters at 1. -/
def emptyDB : DB :=
  { users := [], refreshTokens := [], questions := [], answerOptions := [],
    exams := [], examAnswers := [],
    nextUserId := 1, nextTokenId := 1, nextExamId := 1, nextExamAnswerId := 1 }

/-- C1 (amended): for every exam session owned by the calling user and in
status in_progress, `finish` succeeds iff at least EXAM_QUESTIONS_COUNT
answers are recorded (the handler only rejects fewer); with fewer it fails
with the InvalidState-kind error, and on success passed is the comparison
of the score against PASSING_SCORE and the stored status becomes completed
or failed accordingly. -/
theorem claim_C1 (db : DB) (uid now examId : Nat) (exam : ExamRow)
    (hexam : db.exams.find? (fun e => e.id == examId) = some exam)
    (huid : exam.userId = uid) (hstat : exam.status = ExamStatus.inProgress) :
    ((finish_exam db uid examId now).isOk = true
      ↔ EXAM_QUESTIONS_COUNT ≤ (db.answersOf examId).length) ∧
    ((db.answersOf examId).length < EXAM_QUESTIONS_COUNT →
      finish_exam db uid examId now = Except.error ApiError.notAllAnswered ∧
      ApiError.notAllAnswered.isInvalidState = true) ∧
    (∀ resp db', finish_exam db uid examId now = Except.ok (resp, db') →
      resp.passed = decide (PASSING_SCORE ≤ exam.score) ∧
      resp.score = exam.score ∧
      resp.totalQuestions = (db.answersOf examId).length ∧
      db'.examStatus examId = some (if PASSING_SCORE ≤ exam.score then ExamStatus.completed
        else ExamStatus.failed)) := by
  refine ⟨⟨?_, ?_⟩, ?_, ?_⟩
  · intro hok
    obtain ⟨resp, db', hfin⟩ : ∃ resp db',
        finish_exam db uid examId now = Except.ok (resp, db') := by
      rcases hres : finish_exam db uid examId now with e | ⟨resp, db'⟩
      · rw [hres] at hok; cases hok
      · exact ⟨resp, db', rfl⟩
    obtain ⟨exam2, _, _, _, hlen, _, _⟩ := finish_exam_ok hfin
    exact hlen
  · intro hlen
    rw [finish_exam_succeeds hexam huid hstat hlen]
    rfl
  · intro hlen
    exact ⟨finish_not_enough hexam huid hstat hlen, rfl⟩
  · intro resp db' hfin
    obtain ⟨exam2, hexam2, _, _, hlen, hresp, hdb⟩ := finish_exam_ok hfin
    rw [hexam] at hexam2
    injection hexam2 with h2
    subst h2
    refine ⟨by rw [hresp], by rw [hresp], by rw [hresp], ?_⟩
    rw [hdb]
    unfold DB.examStatus
    show ((db.exams.map (fun e =>
      if e.id == examId then
        { e with
            status := if decide (PASSING_SCORE ≤ exam.score) = true then ExamStatus.completed
                      else ExamStatus.failed,
            finishedAt := some now }
      else e)).find? (fun e => e.id == examId)).map ExamRow.status = _
    rw [find?_status_update, hexam]
    have hid : exam.id = examId := by simpa using List.find?_some hexam
    by_cases hp : PASSING_SCORE ≤ exam.score
    · simp [hid, hp]
    · simp [hid, hp]

/-- Counterexample to C1 as stated: a session owned by the calling user,
in progress, with 21 recorded answers (more than EXAM_QUESTIONS_COUNT, so
not exactly QUESTIONS_PER_EXAM), on which `finish` nevertheless succeeds:
the handler only rejects sessions with fewer recorded answers. -/
theorem claim_C1_counterexample :
    ((examDB 21 ExamStatus.inProgress 18 (exAnswers 18 3)).answersOf 0).length = 21 ∧
    (examDB 21 ExamStatus.inProgress 18 (exAnswers 18 3)).exams
      = [{ id := 0, userId := 1, score := 18, status := ExamStatus.inProgress,
           startedAt := 0, finishedAt := none }] ∧
    (finish_exam (examDB 21 ExamStatus.inProgress 18 (exAnswers 18 3)) 1 0 9).isOk
      = true := by
  exact ⟨by decide, by decide, by decide⟩

/-- Witness for C1 at a concrete database: an in-progress session of alice
with exactly 20 recorded answers finishes successfully. -/
theorem claim_C1_witness :
    (finish_exam (examDB 20 ExamStatus.inProgress 18 (exAnswers 18 2)) 1 0 9).isOk
      = true :=
  (claim_C1 (examDB 20 ExamStatus.inProgress 18 (exAnswers 18 2)) 1 9 0
      { id := 0, userId := 1, score := 18, status := ExamStatus.inProgress,
        startedAt := 0, finishedAt := none }
      (by decide) (by decide) (by decide)).1.mpr (by decide)

/-- C3: at most one ExamAnswer per (session, question) pair: after a
successful `answer` for a question, a second `answer` call for the same
question in the same session — with any option that exists for that
question — fails with the Conflict-kind duplicate-answer error, and the
database (so in particular the session's score and its recorded answers)
is unchanged. -/
theorem claim_C3 {db : DB} {uid examId questionId optionId now : Nat}
    {resp : AnswerResponse} {db' : DB}
    (hfirst : answer_question db uid examId questionId optionId now = Except.ok (resp, db'))
    (optionId2 now2 : Nat)
    (hopt2 : (db'.answerOptions.find?
      (fun o => o.id == optionId2 && o.questionId == questionId)).isSome = true) :
    answer_question db' uid examId questionId optionId2 now2
      = Except.error ApiError.alreadyAnswered ∧
    applyOp db' (Op.answer uid examId questionId optionId2 now2) = db' ∧
    ApiError.alreadyAnswered.isConflict = true := by
  obtain ⟨exam, option, hexam, huid, hstat, hq, hopt, hdup, hresp, hdb⟩ :=
    answer_question_ok hfirst
  subst hdb
  dsimp only at hopt2
  obtain ⟨q, hq'⟩ := Option.isSome_iff_exists.mp hq
  obtain ⟨opt2, hopt2'⟩ := Option.isSome_iff_exists.mp hopt2
  have hid : (exam.id == examId) = true := by simpa using List.find?_some hexam
  have hfind2 : (db.exams.map (fun e =>
      if e.id == examId then
        { e with score := if option.isCorrect then exam.score + 1 else exam.score }
      else e)).find? (fun e => e.id == examId)
      = some { exam with
                 score := if option.isCorrect then exam.score + 1 else exam.score } := by
    rw [find?_score_update, hexam]
    show some (if (exam.id == examId) = true then _ else exam) = _
    rw [if_pos hid]
  have herr : answer_question
      { db with
          examAnswers := db.examAnswers ++
            [newAnswerRow db examId questionId optionId now option.isCorrect],
          exams := db.exams.map (fun e =>
            if e.id == examId then
              { e with score := if option.isCorrect then exam.score + 1 else exam.score }
            else e),
          nextExamAnswerId := db.nextExamAnswerId + 1 }
      uid examId questionId optionId2 now2 = Except.error ApiError.alreadyAnswered := by
    unfold answer_question
    dsimp only
    rw [hfind2]
    dsimp only
    rw [if_neg (by simp [huid]), if_neg (by simp [hstat]), hq', hopt2',
      find?_append_none _ hdup, List.find?_cons_of_pos _ (by simp [newAnswerRow])]
  exact ⟨herr, by simp only [applyOp, herr], rfl⟩

/-- The concrete database of the C3 witness before any answer: alice has
an in-progress empty exam over a 21-question catalog. -/
def c3db0 : DB := examDB 21 ExamStatus.inProgress 0 []

/-- The C3 witness database after answering question 0 with its correct
option. -/
def c3db1 : DB := applyOp c3db0 (Op.answer 1 0 0 100 3)

/-- Witness for C3 at a concrete database: answering question 0 again
(with the question's other option) is rejected as a duplicate. -/
theorem claim_C3_witness :
    answer_question c3db1 1 0 0 200 4 = Except.error ApiError.alreadyAnswered :=
  (claim_C3
    (show answer_question c3db0 1 0 0 100 3
        = Except.ok ({ message := "Ответ сохранен", isCorrect := true,
                       currentScore := 1 }, c3db1) from rfl)
    200 4 (by decide)).1

/-- C8: the score column of every ExamSession always equals the number of
its recorded answers whose correctness flag is set: every operation
preserves the equality (given the primary/foreign-key well-formedness the
store guarantees), `start` creates the session with score 0 and no
recorded answers, and an accepted `answer` appends exactly one answer row
carrying the option's correctness, moves the stored score to old + 1 iff
that option is correct, and returns that correctness together with the
running score. -/
theorem claim_C8 :
    (∀ (db : DB) (op : Op), ExamWF db → ScoreInv db → ScoreInv (applyOp db op)) ∧
    (∀ (db : DB) (uid : Nat) (sample : List QuestionRow) (now : Nat)
        (resp : StartResponse) (db' : DB), ExamWF db →
      start_exam db uid sample now = Except.ok (resp, db') →
        db'.exams = db.exams ++
          [{ id := db.nextExamId, userId := uid, score := 0,
             status := ExamStatus.inProgress, startedAt := now, finishedAt := none }] ∧
        db'.answersOf db.nextExamId = []) ∧
    (∀ (db : DB) (uid examId questionId optionId now : Nat)
        (resp : AnswerResponse) (db' : DB),
      answer_question db uid examId questionId optionId now = Except.ok (resp, db') →
      ∃ exam option,
        db.exams.find? (fun e => e.id == examId) = some exam ∧
        db.answerOptions.find? (fun o => o.id == optionId && o.questionId == questionId)
          = some option ∧
        resp.isCorrect = option.isCorrect ∧
        resp.currentScore = (if option.isCorrect then exam.score + 1 else exam.score) ∧
        db'.examAnswers = db.examAnswers ++
          [newAnswerRow db examId questionId optionId now option.isCorrect] ∧
        db'.examScore examId
          = some (if option.isCorrect then exam.score + 1 else exam.score)) := by
  refine ⟨scoreInv_applyOp, ?_, ?_⟩
  · intro db uid sample now resp db' hwf hok
    obtain ⟨hact, hlen, hresp, hdb⟩ := start_exam_ok hok
    subst hdb
    refine ⟨rfl, ?_⟩
    unfold DB.answersOf
    dsimp only
    rw [List.filter_eq_nil_iff]
    intro a ha
    have := fresh_examId_unreferenced hwf a ha
    simp [this]
  · intro db uid examId questionId optionId now resp db' hok
    obtain ⟨exam, option, hexam, huid, hstat, hq, hopt, hdup, hresp, hdb⟩ :=
      answer_question_ok hok
    subst hdb
    have heq : exam.id = examId := by simpa using List.find?_some hexam
    refine ⟨exam, option, hexam, hopt, by rw [hresp], by rw [hresp], rfl, ?_⟩
    unfold DB.examScore
    dsimp only
    rw [find?_score_update, hexam]
    simp [heq]

/-- Witness for C8 at a concrete database: the score invariant is
preserved when alice answers question 0 of her empty in-progress exam. -/
theorem claim_C8_witness :
    ScoreInv (applyOp c3db0 (Op.answer 1 0 0 100 3)) :=
  claim_C8.1 c3db0 (Op.answer 1 0 0 100 3) (by decide) (by decide)

/-- C10: `answer` accepts any existing (question, option) pair of the
catalog for an owned in-progress session as long as the question is not
yet answered there — no check relates the question to the set sampled at
`start` (the Exam row stores no sampled set), and no check bounds the
number of recorded answers, so a session can record answers to questions
never presented to it and accumulate more than EXAM_QUESTIONS_COUNT
answers. -/
theorem claim_C10 (db : DB) (uid examId questionId optionId now : Nat)
    (exam : ExamRow) (option : AnswerOptionRow)
    (hexam : db.exams.find? (fun e => e.id == examId) = some exam)
    (huid : exam.userId = uid) (hstat : exam.status = ExamStatus.inProgress)
    (hq : (db.questions.find? (fun q => q.id == questionId)).isSome = true)
    (hopt : db.answerOptions.find? (fun o => o.id == optionId && o.questionId == questionId)
      = some option)
    (hdup : db.examAnswers.find?
      (fun a => a.examId == examId && a.questionId == questionId) = none) :
    ∃ resp db',
      answer_question db uid examId questionId optionId now = Except.ok (resp, db') ∧
      (db'.answersOf examId).length = (db.answersOf examId).length + 1 := by
  refine ⟨_, _, answer_question_succeeds hexam huid hstat hq hopt hdup, ?_⟩
  unfold DB.answersOf
  dsimp only
  rw [List.filter_append, List.filter_singleton, List.length_append]
  simp [newAnswerRow]

/-- Witness for C10 at a concrete database: alice's in-progress session
already holds EXAM_QUESTIONS_COUNT answers for questions 0..19, and
answering catalog question 20 (never sampled into any session) is
accepted, bringing the count to 21. -/
theorem claim_C10_witness :
    ((examDB 21 ExamStatus.inProgress 18 (exAnswers 18 2)).answersOf 0).length
      = EXAM_QUESTIONS_COUNT ∧
    (∃ resp db',
      answer_question (examDB 21 ExamStatus.inProgress 18 (exAnswers 18 2)) 1 0 20 120 9
        = Except.ok (resp, db') ∧
      (db'.answersOf 0).length
        = ((examDB 21 ExamStatus.inProgress 18 (exAnswers 18 2)).answersOf 0).length + 1) :=
  ⟨by decide,
   claim_C10 (examDB 21 ExamStatus.inProgress 18 (exAnswers 18 2)) 1 0 20 120 9
     { id := 0, userId := 1, score := 18, status := ExamStatus.inProgress,
       startedAt := 0, finishedAt := none }
     (exOption 20)
     (by decide) (by decide) (by decide) (by decide) (by decide) (by decide)⟩

/-- C7: for a user with no active in-progress session, whenever the
catalog holds at least EXAM_QUESTIONS_COUNT questions `start` succeeds and
returns exactly EXAM_QUESTIONS_COUNT questions with pairwise distinct ids
(given the catalog's primary-key uniqueness and random.sample's contract),
in the projected schema that carries only option ids and texts — no
correctness flags; whenever the catalog holds fewer, `start` fails with
the InsufficientData-kind error and creates no session. -/
theorem claim_C7 (db : DB) (uid : Nat) (sample : List QuestionRow) (now : Nat)
    (hact : db.exams.find?
      (fun e => e.userId == uid && e.status == ExamStatus.inProgress) = none) :
    (EXAM_QUESTIONS_COUNT ≤ db.questions.length → SampleOk db.questions sample →
      QuestionIdsNodup db →
      ∃ resp db', start_exam db uid sample now = Except.ok (resp, db') ∧
        resp.questions.length = EXAM_QUESTIONS_COUNT ∧
        (resp.questions.map QuestionOut.id).Nodup ∧
        resp.questions = sample.map (questionToSchema db)) ∧
    (db.questions.length < EXAM_QUESTIONS_COUNT →
      start_exam db uid sample now = Except.error ApiError.insufficientQuestions ∧
      applyOp db (Op.start uid sample now) = db ∧
      ApiError.insufficientQuestions.isInsufficientData = true) := by
  constructor
  · intro hlen hs hqn
    obtain ⟨hslen, hsnodup, hsub⟩ := hs
    refine ⟨_, _, start_exam_succeeds hact hlen, ?_, ?_, rfl⟩
    · show (sample.map (questionToSchema db)).length = _
      rw [List.length_map, hslen]
    · show ((sample.map (questionToSchema db)).map QuestionOut.id).Nodup
      rw [List.map_map]
      show (sample.map QuestionRow.id).Nodup
      refine List.Nodup.map_on ?_ hsnodup
      intro x hx y hy hxy
      exact List.inj_on_of_nodup_map hqn (hsub x hx) (hsub y hy) hxy
  · intro hlt
    have herr : start_exam db uid sample now
        = Except.error ApiError.insufficientQuestions := by
      unfold start_exam
      rw [hact, if_pos hlt]
    exact ⟨herr, by simp only [applyOp, herr], rfl⟩

/-- Witness for C7 at a concrete database: a user with no active session
over a 20-question catalog, with the sample being the whole catalog. -/
theorem claim_C7_witness :
    ∃ resp db',
      start_exam (examDB 20 ExamStatus.completed 18 []) 1
        ((List.range 20).map exQuestion) 5 = Except.ok (resp, db') ∧
      resp.questions.length = EXAM_QUESTIONS_COUNT ∧
      (resp.questions.map QuestionOut.id).Nodup ∧
      resp.questions = ((List.range 20).map exQuestion).map
        (questionToSchema (examDB 20 ExamStatus.completed 18 [])) :=
  (claim_C7 (examDB 20 ExamStatus.completed 18 []) 1 ((List.range 20).map exQuestion) 5
    (by decide)).1 (by decide) (by decide) (by decide)

/-- C4: after a successful `register`, `login` with the registered email
and the same password succeeds, and `login` with that email and any other
password fails with the Unauthorized-kind bad-credentials error. -/
theorem claim_C4 {db : DB} {email username password : String} {now : Nat}
    {resp : RegisterResponse} {db' : DB}
    (hreg : register db email username password now = Except.ok (resp, db')) :
    ∀ now2 : Nat,
      (login db' email password now2).isOk = true ∧
      (∀ wrong : String, wrong ≠ password →
        login db' email wrong now2 = Except.error ApiError.badCredentials ∧
        ApiError.badCredentials.isUnauthorized = true) := by
  obtain ⟨hmail, hname, hresp, hdb⟩ := register_ok hreg
  subst hdb
  intro now2
  have hfind : (db.users ++
      [({ id := db.nextUserId, email := email, username := username,
          password := hash_password password, role := Role.user,
          createdAt := now } : UserRow)]).find?
      (fun u => u.email == email)
      = some { id := db.nextUserId, email := email, username := username,
               password := hash_password password, role := Role.user, createdAt := now } := by
    rw [find?_append_none _ hmail]
    exact List.find?_cons_of_pos _ (by simp)
  constructor
  · have hv : verify_password password (hash_password password) = Except.ok true := by
      simp [verify_password, hash_password]
    unfold login
    dsimp only
    rw [hfind]
    dsimp only
    rw [hv]
    rfl
  · intro wrong hw
    have hv : verify_password wrong (hash_password password) = Except.ok false := by
      simp only [verify_password, hash_password, Except.ok.injEq]
      rw [beq_eq_false_iff_ne]
      exact fun h => hw h.symm
    refine ⟨?_, rfl⟩
    unfold login
    dsimp only
    rw [hfind]
    dsimp only
    rw [hv]
    rfl

/-- The C4 witness database: the state after registering alice's
credentials into the empty database. -/
def c4db1 : DB := applyOp emptyDB (Op.register "a@b.c" "alice" "pw" 0)

/-- Witness for C4 at a concrete database: after registering, login with
the right password succeeds and login with a wrong password is
Unauthorized. -/
theorem claim_C4_witness :
    (login c4db1 "a@b.c" "pw" 7).isOk = true ∧
    login c4db1 "a@b.c" "px" 7 = Except.error ApiError.badCredentials :=
  have hreg : register emptyDB "a@b.c" "alice" "pw" 0
      = Except.ok ({ id := 1, email := "a@b.c", username := "alice",
                     createdAt := 0 }, c4db1) := rfl
  ⟨(claim_C4 hreg 7).1, ((claim_C4 hreg 7).2 "px" (by decide)).1⟩

theorem logout_noop {db : DB} {tok : Jwt}
    (h : db.refreshTokens.find? (fun r => r.token == tok) = none) :
    logout db tok = ("Logout success", db) := by
  unfold logout
  rw [h]

theorem logout_removes {db : DB} {tok : Jwt}
    (huniq : (db.refreshTokens.filter (fun r => r.token == tok)).length ≤ 1) :
    (logout db tok).2.refreshTokens.find? (fun r => r.token == tok) = none := by
  unfold logout
  rcases hfind : db.refreshTokens.find? (fun r => r.token == tok) with _ | row
  · rw [hfind]
    exact hfind
  · rw [hfind]
    dsimp only
    rw [List.find?_eq_none]
    intro x hx hxtok
    obtain ⟨hxorig, hxid⟩ := List.mem_filter.mp hx
    have hxmem : x ∈ db.refreshTokens.filter (fun r => r.token == tok) :=
      List.mem_filter.mpr ⟨hxorig, hxtok⟩
    have hrowmem : row ∈ db.refreshTokens.filter (fun r => r.token == tok) :=
      List.mem_filter.mpr ⟨List.mem_of_find?_eq_some hfind,
        by simpa using List.find?_some hfind⟩
    have hxrow : x = row := by
      rcases hl : db.refreshTokens.filter (fun r => r.token == tok) with _ | ⟨a, _ | ⟨b, t⟩⟩
      · rw [hl] at hxmem; cases hxmem
      · rw [hl] at hxmem hrowmem
        rw [List.mem_singleton] at hxmem hrowmem
        rw [hxmem, hrowmem]
      · rw [hl] at huniq; simp at huniq
    rw [hxrow] at hxid
    simp at hxid

/-- C5 (amended): for every refresh token matching at most one persisted
record (which is the case except when the same user logged in twice at
the same timestamp, making `login` persist two rows with the identical
encoded token), `refresh` after `logout` with that token always fails
with an Unauthorized-kind error; `logout` is idempotent and always
answers success. -/
theorem claim_C5 (db : DB) (tok : Jwt)
    (huniq : (db.refreshTokens.filter (fun r => r.token == tok)).length ≤ 1) :
    (∀ now, ∃ e, refresh_token (logout db tok).2 tok now = Except.error e ∧
       e.isUnauthorized = true) ∧
    (logout (logout db tok).2 tok).2 = (logout db tok).2 ∧
    (logout db tok).1 = "Logout success" ∧
    (logout (logout db tok).2 tok).1 = "Logout success" := by
  have hnone := logout_removes huniq
  refine ⟨?_, ?_, ?_, ?_⟩
  · intro now
    unfold refresh_token decode_token
    by_cases hexp : tok.exp ≤ now
    · rw [if_pos hexp]
      exact ⟨ApiError.tokenExpired, rfl, rfl⟩
    · rw [if_neg hexp]
      dsimp only
      by_cases htyp : tok.typ = TokenType.refresh
      · rw [if_neg (by simp [htyp])]
        have hconj : (logout db tok).2.refreshTokens.find?
            (fun r => r.token == tok && r.userId == tok.sub) = none := by
          rw [List.find?_eq_none]
          intro x hx hpx
          rw [Bool.and_eq_true] at hpx
          exact (List.find?_eq_none.mp hnone x hx) hpx.1
        rw [hconj]
        exact ⟨ApiError.tokenRevoked, rfl, rfl⟩
      · rw [if_pos htyp]
        exact ⟨ApiError.wrongTokenType, rfl, rfl⟩
  · rw [logout_noop hnone]
  · unfold logout
    split <;> rfl
  · rw [logout_noop hnone]

/-- The C5 databases: alice with no outstanding tokens, then after one
login at time 0, then after a second login at the same time 0 (the second
row carries the identical encoded refresh token, since the payload —
subject and expiry — is identical). -/
def c5base : DB := examDB 0 ExamStatus.completed 0 []

/-- The refresh token `login` issues for alice (user id 1) at time 0. -/
def c5tok : Jwt := create_refresh_token 1 0

/-- State after alice's first login at time 0. -/
def c5db1 : DB := applyOp c5base (Op.login "a@b.c" "pw" 0)

/-- State after alice's second login at time 0. -/
def c5db2 : DB := applyOp c5db1 (Op.login "a@b.c" "pw" 0)

/-- Counterexample to C5 as stated: both logins issue the same refresh
token string; after `logout` with that token (which deletes only the
`.first()` matching row) a `refresh` with the very same token still
succeeds, because the second persisted row remains. -/
theorem claim_C5_counterexample :
    login c5base "a@b.c" "pw" 0
      = Except.ok ({ accessToken := create_access_token 1 "a@b.c" 0,
                     refreshToken := c5tok, tokenType := "Bearer" }, c5db1) ∧
    login c5db1 "a@b.c" "pw" 0
      = Except.ok ({ accessToken := create_access_token 1 "a@b.c" 0,
                     refreshToken := c5tok, tokenType := "Bearer" }, c5db2) ∧
    (refresh_token (logout c5db2 c5tok).2 c5tok 5).isOk = true :=
  ⟨rfl, rfl, rfl⟩

/-- Witness for C5 (amended) at a concrete database: after a single login
the token matches exactly one row, and logout followed by refresh is
Unauthorized. -/
theorem claim_C5_witness :
    ∃ e, refresh_token (logout c5db1 c5tok).2 c5tok 5 = Except.error e ∧
      e.isUnauthorized = true :=
  (claim_C5 c5db1 c5tok (by decide)).1 5

/-- State after alice (registered through `register`, so with an argon2
hash) changes her password to pw2 through PUT /users/me, which hashes
with the bcrypt context. -/
def c9db2 : DB := applyOp c4db1 (Op.updateProfile 1 none none (some "pw2"))

/-- An admin user for the admin-update path of C9. -/
def adminBob : UserRow :=
  { id := 2, email := "b@b.c", username := "bob", password := hash_password "bp",
    role := Role.admin, createdAt := 0 }

/-- The registered database with an additional admin account. -/
def c9adminDB : DB := { c4db1 with users := c4db1.users ++ [adminBob], nextUserId := 3 }

/-- State after the admin updates alice's password to pw3 through
PUT /admin/users/1, which also hashes with the bcrypt context. -/
def c9db3 : DB := applyOp c9adminDB (Op.adminUpdate 2 1 none none (some "pw3") none)

/-- C9, checking the flagged discrepancy: the hash function of `register`
(argon2 context) differs from the one of the user self-update and admin
update paths (bcrypt context) for every password, and a password stored
by either update path does not verify under `login`: verifying it raises
passlib's unknown-hash exception, which is unhandled and surfaces as a
generic 500 internal failure, so after updating the password a login with
the new, correct password fails with that internal error (never a
success, and not even the bad-credentials 401). -/
theorem claim_C9 :
    (∀ p : String, hash_password p ≠ bcrypt_hash p ∧
      verify_password p (bcrypt_hash p) = Except.error ApiError.unknownHashError ∧
      verify_password p (hash_password p) = Except.ok true) ∧
    update_current_user_profile c4db1 1 none none (some "pw2") = Except.ok c9db2 ∧
    login c9db2 "a@b.c" "pw2" 9 = Except.error ApiError.unknownHashError ∧
    admin_update_user c9adminDB 2 1 none none (some "pw3") none = Except.ok c9db3 ∧
    login c9db3 "a@b.c" "pw3" 9 = Except.error ApiError.unknownHashError := by
  refine ⟨?_, rfl, rfl, rfl, rfl⟩
  intro p
  exact ⟨by simp [hash_password, bcrypt_hash], rfl,
    by simp [verify_password, hash_password]⟩

/-- Witness for C9 at a concrete password: the two hashing contexts
disagree on pw2. -/
theorem claim_C9_witness : hash_password "pw2" ≠ bcrypt_hash "pw2" :=
  (claim_C9.1 "pw2").1

end PDD
